import Mathlib

/-!
Verification of the two command-line utilities of this repository:

* `src/examples/python-sample/data_processor.py` — CSV-to-JSON converter
  (`process_csv`), embedded here as a pure function over an explicit
  filesystem map `Fs : String → Option String`.
* `src/examples/cli-sample/git-stats.py` — repository statistics reporter
  (`get_commit_count`, `get_author_count`, `get_branch_count`,
  `display_stats`), embedded as pure functions of the subprocess result
  (exit code and captured standard output).

Strings coming from files or subprocess output are manipulated through
`List Char`, with an explicit splitter `splitOnCh` mirroring Python's
`str.split(sep)` and `pyStripCh` mirroring Python's `str.strip()`.
-/

namespace Spec2Proof

/-! ## Python string primitives -/

/-- Python `str.split(sep)` for a one-character separator, on the character
list of the string.  Python's split of the empty string yields `['']`;
likewise `splitOnCh sep [] = [[]]`. -/
def splitOnCh (sep : Char) : List Char → List (List Char)
  | [] => [[]]
  | c :: cs =>
    match splitOnCh sep cs with
    | [] => [[]]
    | l :: ls => if c = sep then [] :: l :: ls else (c :: l) :: ls

/-- The whitespace characters removed by Python's `str.strip()` (ASCII
subset: space, tab, newline, carriage return, vertical tab, form feed). -/
def pyIsSpace (c : Char) : Bool :=
  c = ' ' || c = '\t' || c = '\n' || c = '\r' || c = '\x0b' || c = '\x0c'

/-- Python `str.strip()`: remove leading and trailing whitespace. -/
def pyStripCh (l : List Char) : List Char :=
  ((l.dropWhile pyIsSpace).reverse.dropWhile pyIsSpace).reverse

theorem splitOnCh_ne_nil (sep : Char) (cs : List Char) : splitOnCh sep cs ≠ [] := by
  cases cs with
  | nil => simp [splitOnCh]
  | cons c cs =>
    simp only [splitOnCh]
    cases h : splitOnCh sep cs with
    | nil => simp
    | cons l ls =>
      by_cases hc : c = sep <;> simp [hc]

/-- Splitting a string that does not contain the separator yields the
one-element list holding the whole string. -/
theorem splitOnCh_of_not_mem (sep : Char) (cs : List Char) (h : sep ∉ cs) :
    splitOnCh sep cs = [cs] := by
  induction cs with
  | nil => rfl
  | cons c cs ih =>
    have hc : c ≠ sep := by
      intro hc; exact h (by simp [hc])
    have hcs : sep ∉ cs := fun hm => h (List.mem_cons_of_mem _ hm)
    simp [splitOnCh, ih hcs, hc]

/-- Splitting past the first separator occurrence: the prefix before the
separator becomes the first chunk. -/
theorem splitOnCh_append (sep : Char) (xs ys : List Char) (h : sep ∉ xs) :
    splitOnCh sep (xs ++ sep :: ys) = xs :: splitOnCh sep ys := by
  induction xs with
  | nil =>
    simp only [List.nil_append, splitOnCh]
    cases hys : splitOnCh sep ys with
    | nil => exact absurd hys (splitOnCh_ne_nil sep ys)
    | cons l ls => simp
  | cons x xs ih =>
    have hx : x ≠ sep := by
      intro hx; exact h (by simp [hx])
    have hxs : sep ∉ xs := fun hm => h (List.mem_cons_of_mem _ hm)
    show (match splitOnCh sep (xs ++ sep :: ys) with
      | [] => [[]]
      | l :: ls => if x = sep then [] :: l :: ls else (x :: l) :: ls) =
      (x :: xs) :: splitOnCh sep ys
    rw [ih hxs]
    simp [hx]

/-! ## Tabular converter (`data_processor.py`) -/

/-- `pathlib.PurePath.name`: the final path component. -/
def pathName (p : String) : String :=
  String.mk (((splitOnCh '/' p.toList).filter (fun s => s ≠ [])).getLastD [])

/-- `pathlib.PurePath.suffix`: the file extension of the final component,
`name[i:]` for `i = name.rfind('.')` when `0 < i < len(name) - 1`, else
the empty string. -/
def pathSuffix (p : String) : String :=
  let cs := (pathName p).toList
  let tl := cs.reverse.takeWhile (fun c => c ≠ '.')
  if tl.length < cs.length ∧ 0 < cs.length - 1 - tl.length ∧ 0 < tl.length then
    String.mk ('.' :: tl.reverse)
  else ""

/-- A value stored in a `csv.DictReader` row dictionary: an ordinary field
string, the `restval` `None` filled in for an uncovered header column of an
under-length row, or the `row[lf:]` overflow list stored under the
`restkey` for an over-length row. -/
inductive Field where
  | str (s : String)
  | null
  | overflow (vs : List String)
deriving DecidableEq, Repr

/-- One row dictionary of `csv.DictReader`, in insertion order.  A key is
`some column` for a header column and `none` for the `restkey` (Python
`None`). -/
abbrev Row := List (Option String × Field)

/-- The lines the Python file object yields (minus newline characters):
split on newline, with the empty chunk after a trailing newline dropped
(a file never yields a trailing empty line). -/
def fileLinesCh (cs : List Char) : List (List Char) :=
  let ls := splitOnCh '\n' cs
  if ls.getLast? = some [] then ls.dropLast else ls

/-- `csv.reader`'s record for one line of quote-free input: a blank line
gives the empty record, any other line is split on commas. -/
def toRecord (l : List Char) : List String :=
  if l = [] then [] else (splitOnCh ',' l).map String.mk

/-- `csv.DictReader.__next__`'s dictionary for one record:
`dict(zip(fieldnames, row))`, then extras under the `restkey` when the row
is longer than the header, or `restval` `None` for each uncovered header
column when it is shorter. -/
def dictRow (fieldnames row : List String) : Row :=
  let d := (fieldnames.zip row).map (fun p => (some p.1, Field.str p.2))
  if fieldnames.length < row.length then
    d ++ [(none, Field.overflow (row.drop fieldnames.length))]
  else
    d ++ (fieldnames.drop row.length).map (fun k => (some k, Field.null))

/-- Iterating `csv.DictReader` over the whole file: the first record is the
header (fieldnames), blank records among the remaining ones are skipped,
and each other record becomes a row dictionary. -/
def dictReadAll (content : String) : List Row :=
  match (fileLinesCh content.toList).map toRecord with
  | [] => []
  | header :: rest => (rest.filter (fun r => r ≠ [])).map (dictRow header)

/-- The filesystem, mapping a path to the content of the file there. -/
def Fs := String → Option String

/-- Writing a file: the path now maps to the new content. -/
def fsWrite (fs : Fs) (p v : String) : Fs :=
  fun q => if q = p then some v else fs q

/-- The errors `process_csv` raises: `FileNotFoundError` for a missing
input path, `ValueError` for a wrong extension. -/
inductive PyError where
  | fileNotFound (msg : String)
  | valueError (msg : String)
deriving DecidableEq, Repr

/-- The dictionary `process_csv` returns: `data` (the rows), `count`
(`len(data)`), `source` (the input path). -/
structure ConvResult where
  data : List Row
  count : Nat
  source : String
deriving DecidableEq, Repr

/-- JSON string escaping as in `json.dump` for the characters that occur
here: backslash, double quote, and the common control characters. -/
def jsonEscapeChar (c : Char) : List Char :=
  if c = '\\' then ['\\', '\\']
  else if c = '"' then ['\\', '"']
  else if c = '\n' then ['\\', 'n']
  else if c = '\r' then ['\\', 'r']
  else if c = '\t' then ['\\', 't']
  else [c]

/-- A JSON string literal. -/
def jsonStr (s : String) : String :=
  "\"" ++ String.mk (s.toList.flatMap jsonEscapeChar) ++ "\""

/-- `n` spaces. -/
def pad (n : Nat) : String := String.mk (List.replicate n ' ')

/-- A row key as `json.dump` renders it: the `None` restkey becomes the
string key `null`. -/
def jsonKey : Option String → String
  | some k => jsonStr k
  | none => jsonStr "null"

/-- A field value as `json.dump` with `indent=2` renders it at indentation
`ind`. -/
def jsonField (ind : Nat) : Field → String
  | .str s => jsonStr s
  | .null => "null"
  | .overflow [] => "[]"
  | .overflow (v :: vs) =>
    "[\n" ++ String.intercalate ",\n"
      (((v :: vs).map (fun x => pad (ind + 2) ++ jsonStr x))) ++
    "\n" ++ pad ind ++ "]"

/-- A row dictionary as `json.dump` with `indent=2` renders it. -/
def jsonRow (ind : Nat) (r : Row) : String :=
  match r with
  | [] => "\x7b\x7d"
  | _ => "\x7b\n" ++ String.intercalate ",\n"
      (r.map (fun p => pad (ind + 2) ++ jsonKey p.1 ++ ": " ++ jsonField (ind + 2) p.2)) ++
    "\n" ++ pad ind ++ "\x7d"

/-- The `data` list as `json.dump` with `indent=2` renders it. -/
def jsonRows (rows : List Row) : String :=
  match rows with
  | [] => "[]"
  | _ => "[\n" ++ String.intercalate ",\n"
      (rows.map (fun r => pad 4 ++ jsonRow 4 r)) ++
    "\n  ]"

/-- `json.dump(result, f, indent=2)` for the result dictionary of
`process_csv`, key order `data`, `count`, `source`. -/
def jsonDump (res : ConvResult) : String :=
  "\x7b\n  \"data\": " ++ jsonRows res.data ++
  ",\n  \"count\": " ++ toString res.count ++
  ",\n  \"source\": " ++ jsonStr res.source ++ "\n\x7d"

/-- `process_csv(input_file, output_file)`: checks that the input path
exists (`FileNotFoundError` otherwise), that its suffix is `.csv`
(`ValueError` otherwise), reads all rows through `csv.DictReader`, builds
the result dictionary with `count = len(data)`, and, when an output path is
given, writes the JSON serialization there.  Returns the filesystem after
the call together with the outcome. -/
def process_csv (fs : Fs) (input_file : String) (output_file : Option String) :
    Fs × Except PyError ConvResult :=
  match fs input_file with
  | none => (fs, .error (.fileNotFound ("Input file '" ++ input_file ++ "' not found")))
  | some content =>
    if pathSuffix input_file ≠ ".csv" then
      (fs, .error (.valueError "Input file must be a CSV file"))
    else
      let data := dictReadAll content
      let result : ConvResult := ⟨data, data.length, input_file⟩
      match output_file with
      | none => (fs, .ok result)
      | some op => (fsWrite fs op (jsonDump result), .ok result)

/-! ## Repository statistics reporter (`git-stats.py`) -/

/-- The outcome of `subprocess.run(...)` with captured output: the exit
code and the captured standard output of the external tool. -/
structure ProcResult where
  returncode : Int
  stdout : String
deriving DecidableEq, Repr

/-- The pure part of `get_author_count`:
`len(set(result.stdout.strip().split('\n')))`. -/
def authorSetSize (stdout : String) : Nat :=
  ((splitOnCh '\n' (pyStripCh stdout.toList)).map String.mk).dedup.length

/-- `get_author_count`: raises `RuntimeError` on a non-zero exit code,
otherwise the size of the set of lines of the stripped log output. -/
def get_author_count (res : ProcResult) : Except String Nat :=
  if res.returncode ≠ 0 then .error "Failed to get author information"
  else .ok (authorSetSize res.stdout)

/-- The list comprehension of `get_branch_count`:
`[line.strip() for line in result.stdout.split('\n') if line.strip()]`. -/
def branchLines (stdout : String) : List String :=
  ((splitOnCh '\n' stdout.toList).filter (fun l => pyStripCh l ≠ [])).map
    (fun l => String.mk (pyStripCh l))

/-- `get_branch_count`: raises `RuntimeError` on a non-zero exit code,
otherwise the number of non-blank lines of the branch listing. -/
def get_branch_count (res : ProcResult) : Except String Nat :=
  if res.returncode ≠ 0 then .error "Failed to get branch information"
  else .ok (branchLines res.stdout).length

/-- The number of lines of the output that are non-empty after stripping
whitespace, stated from the spec's words for comparison with
`get_branch_count`. -/
def countNonBlankLines (stdout : String) : Nat :=
  (splitOnCh '\n' stdout.toList).countP (fun l => pyStripCh l ≠ [])

/-- The `stats` dictionary assembled in `main`, insertion order
`commits`, `authors`, `branches`. -/
structure StatsRecord where
  commits : Nat
  authors : Nat
  branches : Nat
deriving DecidableEq, Repr

/-- `json.dumps(stats, indent=2)` for the stats dictionary, stable key
order `commits`, `authors`, `branches`. -/
def jsonStats (s : StatsRecord) : String :=
  "\x7b\n  \"commits\": " ++ toString s.commits ++
  ",\n  \"authors\": " ++ toString s.authors ++
  ",\n  \"branches\": " ++ toString s.branches ++ "\n\x7d"

/-- `display_stats(stats, output_format)` as the list of lines printed:
the JSON document in `json` format, otherwise the four-line human-readable
text report (title, separator, and the three fixed-width stat lines). -/
def display_stats (stats : StatsRecord) (output_format : String) : List String :=
  if output_format = "json" then
    [jsonStats stats]
  else
    ["Git Repository Statistics",
     String.mk (List.replicate 40 '='),
     "Commits:  " ++ toString stats.commits,
     "Authors:  " ++ toString stats.authors,
     "Branches: " ++ toString stats.branches]

/-! ## Concrete fixtures -/

/-- A filesystem holding one CSV file with two data rows. -/
def fsA : Fs := fun p => if p = "data.csv" then some "a,b\n1,2\n3,4" else none

/-- A filesystem holding a CSV file under an upper-case `.CSV` extension. -/
def fsB : Fs := fun p => if p = "data.CSV" then some "a,b\n1,2" else none

/-- A filesystem holding an empty file and a header-only file, both with
the `.csv` extension. -/
def fsC : Fs := fun p =>
  if p = "empty.csv" then some ""
  else if p = "header.csv" then some "a,b" else none

/-! ## Helper lemmas -/

theorem process_csv_eq (fs : Fs) (inp : String) (outp : Option String) :
    process_csv fs inp outp =
      match fs inp with
      | none => (fs, .error (.fileNotFound ("Input file '" ++ inp ++ "' not found")))
      | some content =>
        if pathSuffix inp ≠ ".csv" then
          (fs, .error (.valueError "Input file must be a CSV file"))
        else
          match outp with
          | none => (fs, .ok ⟨dictReadAll content, (dictReadAll content).length, inp⟩)
          | some op =>
            (fsWrite fs op (jsonDump ⟨dictReadAll content, (dictReadAll content).length, inp⟩),
             .ok ⟨dictReadAll content, (dictReadAll content).length, inp⟩) := rfl

/-- On a successful run the result is built from the file's content, with
`count` instantiated to `len(data)`. -/
theorem process_csv_ok (fs : Fs) (inp : String) (outp : Option String) (r : ConvResult)
    (h : (process_csv fs inp outp).2 = .ok r) :
    ∃ content, fs inp = some content ∧ pathSuffix inp = ".csv" ∧
      r = ⟨dictReadAll content, (dictReadAll content).length, inp⟩ := by
  rw [process_csv_eq] at h
  cases hfs : fs inp with
  | none => rw [hfs] at h; simp at h
  | some content =>
    rw [hfs] at h
    by_cases hs : pathSuffix inp = ".csv"
    · refine ⟨content, rfl, hs, ?_⟩
      cases outp with
      | none => simpa [hs] using h.symm
      | some op => simpa [hs] using h.symm
    · simp [hs] at h

/-! ## Claims -/

/-- C1: for every accepted input, the returned `ConversionResult`
satisfies `count = length of rows`: the `count` field equals the number of
elements of the `data` list. -/
theorem process_csv_count_eq_length (fs : Fs) (inp : String) (outp : Option String)
    (r : ConvResult) (h : (process_csv fs inp outp).2 = .ok r) :
    r.count = r.data.length := by
  obtain ⟨content, -, -, hr⟩ := process_csv_ok fs inp outp r h
  subst hr
  rfl

theorem process_csv_count_eq_length_witness :
    (⟨[[(some "a", Field.str "1"), (some "b", Field.str "2")],
       [(some "a", Field.str "3"), (some "b", Field.str "4")]], 2, "data.csv"⟩ :
        ConvResult).count =
    (⟨[[(some "a", Field.str "1"), (some "b", Field.str "2")],
       [(some "a", Field.str "3"), (some "b", Field.str "4")]], 2, "data.csv"⟩ :
        ConvResult).data.length :=
  process_csv_count_eq_length fsA "data.csv" none _ rfl

/-- C2: on an input file whose content is exactly `a,b\n1,2\n3,4`, the
conversion returns the two rows `{a: "1", b: "2"}` and `{a: "3", b: "4"}`
in that order, with `count = 2`. -/
theorem process_csv_two_rows (fs : Fs) (inp : String) (outp : Option String)
    (hread : fs inp = some "a,b\n1,2\n3,4") (hsuf : pathSuffix inp = ".csv") :
    (process_csv fs inp outp).2 =
      .ok ⟨[[(some "a", Field.str "1"), (some "b", Field.str "2")],
            [(some "a", Field.str "3"), (some "b", Field.str "4")]], 2, inp⟩ := by
  rw [process_csv_eq, hread]
  have hd : dictReadAll "a,b\n1,2\n3,4" =
      [[(some "a", Field.str "1"), (some "b", Field.str "2")],
       [(some "a", Field.str "3"), (some "b", Field.str "4")]] := by decide
  cases outp with
  | none => simp [hsuf, hd]
  | some op => simp [hsuf, hd]

theorem process_csv_two_rows_witness :
    (process_csv fsA "data.csv" none).2 =
      .ok ⟨[[(some "a", Field.str "1"), (some "b", Field.str "2")],
            [(some "a", Field.str "3"), (some "b", Field.str "4")]], 2, "data.csv"⟩ :=
  process_csv_two_rows fsA "data.csv" none (by decide) (by decide)

/-- C5: a missing input path fails with `FileNotFoundError`, an existing
input path without the `.csv` suffix fails with `ValueError`, and in both
cases the filesystem is unchanged: no output file is created. -/
theorem process_csv_error_cases (fs : Fs) (inp : String) (outp : Option String) :
    (fs inp = none →
      process_csv fs inp outp =
        (fs, .error (.fileNotFound ("Input file '" ++ inp ++ "' not found")))) ∧
    (∀ content, fs inp = some content → pathSuffix inp ≠ ".csv" →
      process_csv fs inp outp =
        (fs, .error (.valueError "Input file must be a CSV file"))) := by
  constructor
  · intro h
    rw [process_csv_eq, h]
  · intro content h hs
    rw [process_csv_eq, h]
    simp [hs]

theorem process_csv_error_cases_witness :
    process_csv fsA "missing.csv" (some "out.json") =
      (fsA, .error (.fileNotFound "Input file 'missing.csv' not found")) ∧
    process_csv fsB "data.CSV" (some "out.json") =
      (fsB, .error (.valueError "Input file must be a CSV file")) :=
  ⟨(process_csv_error_cases fsA "missing.csv" (some "out.json")).1 (by decide),
   (process_csv_error_cases fsB "data.CSV" (some "out.json")).2 "a,b\n1,2" (by decide)
      (by decide)⟩

/-- C10: the extension precondition is case-sensitive: any existing input
path whose suffix differs from the exact lowercase `.csv` is rejected with
`ValueError`, and the suffix of `data.CSV` is `.CSV`, which differs from
`.csv`. -/
theorem process_csv_suffix_case_sensitive :
    (∀ (fs : Fs) (inp : String) (outp : Option String) (content : String),
      fs inp = some content → pathSuffix inp ≠ ".csv" →
      (process_csv fs inp outp).2 = .error (.valueError "Input file must be a CSV file")) ∧
    pathSuffix "data.CSV" = ".CSV" ∧ (".CSV" : String) ≠ ".csv" := by
  refine ⟨fun fs inp outp content h hs => ?_, by decide, by decide⟩
  rw [process_csv_eq, h]
  simp [hs]

theorem process_csv_suffix_case_sensitive_witness :
    (process_csv fsB "data.CSV" none).2 =
      .error (.valueError "Input file must be a CSV file") :=
  process_csv_suffix_case_sensitive.1 fsB "data.CSV" none "a,b\n1,2" (by decide) (by decide)

theorem fsWrite_same (fs : Fs) (p v : String) : fsWrite fs p v p = some v := by
  simp [fsWrite]

theorem fsWrite_other (fs : Fs) (p v q : String) (h : q ≠ p) :
    fsWrite fs p v q = fs q := by
  simp [fsWrite, h]

/-- A run that passes both preconditions and is given an output path
writes the serialized result to the output path. -/
theorem process_csv_write (fs : Fs) (inp op content : String)
    (h : fs inp = some content) (hs : pathSuffix inp = ".csv") :
    (process_csv fs inp (some op)).1 =
      fsWrite fs op (jsonDump ⟨dictReadAll content, (dictReadAll content).length, inp⟩) := by
  rw [process_csv_eq, h]
  simp [hs]

/-- A run that fails a precondition leaves the filesystem unchanged. -/
theorem process_csv_fst_of_bad (fs : Fs) (inp : String) (outp : Option String)
    (hbad : fs inp = none ∨ pathSuffix inp ≠ ".csv") :
    (process_csv fs inp outp).1 = fs := by
  rw [process_csv_eq]
  cases hfs : fs inp with
  | none => rfl
  | some content =>
    rcases hbad with hbad | hbad
    · rw [hfs] at hbad; exact absurd hbad (by simp)
    · simp [hbad]

/-- C4: converting the same input content twice with the same output path
is idempotent on the output file: after the second run the output path
holds exactly the bytes the first run left there. -/
theorem process_csv_idempotent_output (fs : Fs) (inp outp content : String)
    (h : fs inp = some content) (hne : inp ≠ outp) :
    (process_csv (process_csv fs inp (some outp)).1 inp (some outp)).1 outp
      = (process_csv fs inp (some outp)).1 outp := by
  by_cases hs : pathSuffix inp = ".csv"
  · have h1 := process_csv_write fs inp outp content h hs
    have h2 : (process_csv fs inp (some outp)).1 inp = some content := by
      rw [h1, fsWrite_other _ _ _ _ hne, h]
    have h3 := process_csv_write _ inp outp content h2 hs
    rw [h3, h1, fsWrite_same, fsWrite_same]
  · rw [process_csv_fst_of_bad fs inp (some outp) (Or.inr hs),
      process_csv_fst_of_bad fs inp (some outp) (Or.inr hs)]

theorem process_csv_idempotent_output_witness :
    (process_csv (process_csv fsA "data.csv" (some "out.json")).1 "data.csv"
        (some "out.json")).1 "out.json"
      = (process_csv fsA "data.csv" (some "out.json")).1 "out.json" :=
  process_csv_idempotent_output fsA "data.csv" "out.json" "a,b\n1,2\n3,4"
    (by decide) (by decide)

/-- A file that is a single line, optionally followed by a final newline,
yields no data rows: the single record is consumed as the header. -/
theorem dictReadAll_header_only (content : String) (h : List Char)
    (hc : content.toList = h ∨ content.toList = h ++ ['\n']) (hnl : '\n' ∉ h) :
    dictReadAll content = [] := by
  unfold dictReadAll fileLinesCh
  rcases hc with hc | hc
  · rw [hc, splitOnCh_of_not_mem _ _ hnl]
    by_cases hh : h = []
    · subst hh; simp
    · simp [hh]
  · rw [hc, splitOnCh_append _ _ _ hnl]
    simp [splitOnCh]

/-- C9: an existing `.csv` input that is empty or holds only a header line
converts successfully to `rows = []` and `count = 0`. -/
theorem process_csv_no_data_rows (fs : Fs) (inp : String) (outp : Option String)
    (content : String) (h : List Char)
    (hread : fs inp = some content) (hsuf : pathSuffix inp = ".csv")
    (hc : content.toList = h ∨ content.toList = h ++ ['\n']) (hnl : '\n' ∉ h) :
    (process_csv fs inp outp).2 = .ok ⟨[], 0, inp⟩ := by
  rw [process_csv_eq, hread]
  have hd := dictReadAll_header_only content h hc hnl
  cases outp with
  | none => simp [hsuf, hd]
  | some op => simp [hsuf, hd]

theorem process_csv_no_data_rows_witness :
    (process_csv fsC "empty.csv" none).2 = .ok ⟨[], 0, "empty.csv"⟩ ∧
    (process_csv fsC "header.csv" none).2 = .ok ⟨[], 0, "header.csv"⟩ :=
  ⟨process_csv_no_data_rows fsC "empty.csv" none "" [] (by decide) (by decide)
      (Or.inl rfl) (by decide),
   process_csv_no_data_rows fsC "header.csv" none "a,b" ['a', ',', 'b'] (by decide)
      (by decide) (Or.inl rfl) (by decide)⟩

theorem map_fst_zip_take {α β : Type} (l₁ : List α) (l₂ : List β) :
    (l₁.zip l₂).map Prod.fst = l₁.take l₂.length := by
  induction l₁ generalizing l₂ with
  | nil => simp
  | cons a l₁ ih =>
    cases l₂ with
    | nil => simp
    | cons b l₂ => simp [ih]

/-- C6 counterexample: for header `a,b,c` and row `1,2`, the uncovered
column `c` is not absent — the row dictionary maps it to the `restval`
`None`. -/
theorem dictRow_restval_not_absent :
    dictReadAll "a,b,c\n1,2" =
      [[(some "a", Field.str "1"), (some "b", Field.str "2"), (some "c", Field.null)]] ∧
    ¬ (some "c") ∉ (dictRow ["a", "b", "c"] ["1", "2"]).map Prod.fst := by
  refine ⟨by decide, ?_⟩
  intro h
  exact h (by decide)

/-- C6 amended: an under-length row keeps every header column as a key,
the uncovered ones bound to the `restval` `None` rather than absent; an
over-length row puts the extra values in an overflow bucket stored under
the `restkey` `None`. -/
theorem dictRow_lenient_policy (fieldnames row : List String) :
    (row.length ≤ fieldnames.length →
      (dictRow fieldnames row).map Prod.fst = fieldnames.map some) ∧
    (∀ k ∈ fieldnames.drop row.length, (some k, Field.null) ∈ dictRow fieldnames row) ∧
    (fieldnames.length < row.length →
      (none, Field.overflow (row.drop fieldnames.length)) ∈ dictRow fieldnames row) := by
  refine ⟨fun hle => ?_, fun k hk => ?_, fun hlt => ?_⟩
  · have hnlt : ¬ fieldnames.length < row.length := not_lt.mpr hle
    simp only [dictRow, if_neg hnlt, List.map_append, List.map_map]
    have h1 : ((fieldnames.zip row).map
        ((fun p : Option String × Field => p.1) ∘ fun p => (some p.1, Field.str p.2)))
        = (fieldnames.take row.length).map some := by
      have hcomp : ((fun p : Option String × Field => p.1) ∘
          fun p : String × String => (some p.1, Field.str p.2)) = some ∘ Prod.fst := rfl
      rw [hcomp, ← List.map_map, map_fst_zip_take]
    have h2 : ((fieldnames.drop row.length).map
        ((fun p : Option String × Field => p.1) ∘ fun k => (some k, Field.null)))
        = (fieldnames.drop row.length).map some := rfl
    rw [h1, h2, ← List.map_append, List.take_append_drop]
  · by_cases hlt : fieldnames.length < row.length
    · rw [List.drop_eq_nil_of_le (le_of_lt hlt)] at hk
      exact absurd hk (List.not_mem_nil k)
    · simp only [dictRow, if_neg hlt]
      exact List.mem_append_right _ (List.mem_map.mpr ⟨k, hk, rfl⟩)
  · simp only [dictRow, if_pos hlt]
    exact List.mem_append_right _ (List.mem_singleton.mpr rfl)

theorem dictRow_lenient_policy_witness :
    (dictRow ["a", "b", "c"] ["1", "2"]).map Prod.fst = ["a", "b", "c"].map some ∧
    (some "c", Field.null) ∈ dictRow ["a", "b", "c"] ["1", "2"] ∧
    (none, Field.overflow ["3"]) ∈ dictRow ["a", "b"] ["1", "2", "3"] :=
  ⟨(dictRow_lenient_policy ["a", "b", "c"] ["1", "2"]).1 (by decide),
   (dictRow_lenient_policy ["a", "b", "c"] ["1", "2"]).2.1 "c" (by decide),
   (dictRow_lenient_policy ["a", "b"] ["1", "2", "3"]).2.2 (by decide)⟩

/-- C7: for 5 commits, 2 authors and 3 branches, the text report's stat
lines are exactly `Commits:  5`, `Authors:  2`, `Branches: 3`. -/
theorem display_stats_text_5_2_3 :
    display_stats ⟨5, 2, 3⟩ "text" =
      ["Git Repository Statistics",
       "========================================",
       "Commits:  5",
       "Authors:  2",
       "Branches: 3"] := by decide

/-- C8: for a zero exit code, `get_branch_count` returns exactly the
number of lines of the branch listing that are non-empty after stripping
whitespace — a count, hence never negative. -/
theorem get_branch_count_nonblank_lines (stdout : String) :
    get_branch_count ⟨0, stdout⟩ = .ok (countNonBlankLines stdout) ∧
    0 ≤ countNonBlankLines stdout := by
  refine ⟨?_, Nat.zero_le _⟩
  show Except.ok (branchLines stdout).length = _
  rw [branchLines, countNonBlankLines, List.length_map, List.countP_eq_length_filter]

theorem intercalate_cons_cons_char (sep : Char) (l l' : List Char)
    (ls : List (List Char)) :
    List.intercalate [sep] (l :: l' :: ls) = l ++ sep :: List.intercalate [sep] (l' :: ls) := by
  simp [List.intercalate, List.intersperse_cons_cons]

/-- Splitting on the separator is a left inverse of joining with it, for a
nonempty list of separator-free chunks. -/
theorem splitOnCh_intercalate (sep : Char) (ls : List (List Char)) (hne : ls ≠ [])
    (hmem : ∀ l ∈ ls, sep ∉ l) :
    splitOnCh sep (List.intercalate [sep] ls) = ls := by
  induction ls with
  | nil => exact absurd rfl hne
  | cons l ls ih =>
    cases ls with
    | nil =>
      rw [show List.intercalate [sep] [l] = l by simp [List.intercalate]]
      exact splitOnCh_of_not_mem sep l (hmem l (List.mem_singleton.mpr rfl))
    | cons l' ls' =>
      rw [intercalate_cons_cons_char, splitOnCh_append sep l _ (hmem l (by simp))]
      rw [ih (by simp) (fun x hx => hmem x (List.mem_cons_of_mem _ hx))]

/-- C3 counterexample: on empty log output (a repository with zero
commits, were the log call to succeed with empty output), the author count
is 1, not 0: stripping and splitting the empty string yields the
one-element list holding the empty line. -/
theorem get_author_count_empty_not_zero :
    get_author_count ⟨0, ""⟩ = .ok 1 ∧ get_author_count ⟨0, ""⟩ ≠ .ok 0 := by
  have h : get_author_count ⟨0, ""⟩ = .ok 1 := rfl
  refine ⟨h, fun hc => ?_⟩
  rw [h] at hc
  simp at hc

/-- C3 amended: `get_author_count` returns the number of distinct lines of
the whitespace-stripped log output — which equals the number of distinct
committer emails whenever the log lists at least one commit — but on empty
log output it returns 1, not 0. -/
theorem get_author_count_distinct_lines (emails : List String)
    (hne : emails ≠ [])
    (hnl : ∀ e ∈ emails, '\n' ∉ e.toList)
    (hstrip : pyStripCh (List.intercalate ['\n'] (emails.map String.toList))
      = List.intercalate ['\n'] (emails.map String.toList)) :
    get_author_count ⟨0, String.mk (List.intercalate ['\n'] (emails.map String.toList))⟩
      = .ok emails.dedup.length ∧
    get_author_count ⟨0, ""⟩ = .ok 1 := by
  refine ⟨?_, rfl⟩
  show Except.ok (authorSetSize _) = _
  unfold authorSetSize
  rw [show (String.mk (List.intercalate ['\n'] (emails.map String.toList))).toList
      = List.intercalate ['\n'] (emails.map String.toList) from rfl]
  rw [hstrip]
  rw [splitOnCh_intercalate '\n' _ (by simpa using hne)
    (by intro l hl; obtain ⟨e, he, rfl⟩ := List.mem_map.mp hl; exact hnl e he)]
  rw [List.map_map]
  rw [show (String.mk ∘ String.toList) = id from funext (fun s => rfl)]
  rw [List.map_id]

theorem get_author_count_distinct_lines_witness :
    get_author_count ⟨0, String.mk (List.intercalate ['\n']
        ((["a@x", "b@y", "a@x"] : List String).map String.toList))⟩
      = .ok (["a@x", "b@y", "a@x"] : List String).dedup.length ∧
    get_author_count ⟨0, ""⟩ = .ok 1 :=
  get_author_count_distinct_lines ["a@x", "b@y", "a@x"] (by decide) (by decide) (by decide)

end Spec2Proof
